import Mathlib

/-!
# Neural engine core — shallow embedding

A shallow embedding of the vector/routing core of `neural-engine.js`:
the stateless SIMD kernels (`SIMDOpsService`), the 16-facet shared arena
(`NeuralMindService`), the 32-slot lock-free ring buffer
(`RingBufferService`), the threshold monitor (`PrometheusService`) and the
centroid router (`NeuralRouterService`).

Modelling conventions:
* JS `Float32Array` vectors become `List ℝ`; float arithmetic is modelled
  as exact real arithmetic.
* Methods that can `throw` return `Except String _` carrying the thrown
  message; mutation of `this` becomes explicit state passing.
* The source's 4-way unrolled accumulation loops (stride `i += 4` over the
  512 entries) compute the same sums as a plain left-to-right fold, since
  512 is divisible by 4 and real addition is associative and commutative;
  they are embedded as plain folds over all entries.
* `Atomics.load/store/compareExchange` collapse to plain reads/writes in
  this single-threaded model: the compare-exchange retry loop in `push`
  always succeeds on its first iteration when no other thread interferes.
-/

namespace NeuralEngine

/-- `FACET_SIZE` from the source: 512 floats per facet. -/
def FACET_SIZE : ℕ := 512

/-- `NUM_FACETS` from the source. -/
def NUM_FACETS : ℕ := 16

/-- `RING_SLOTS` from the source: 32 vector slots in the ring buffer. -/
def RING_SLOTS : ℕ := 32

/-- A JS `Float32Array`, modelled as a list of (exact) reals. -/
abbrev Vec := List ℝ

/-- `FacetType.INTENT` (facet index 0). -/
def FacetType.INTENT : ℕ := 0

/-- `FacetType.CONTEXT` (facet index 1). -/
def FacetType.CONTEXT : ℕ := 1

/-- `FacetType.EMOTION` (facet index 2). -/
def FacetType.EMOTION : ℕ := 2

/-- `FacetType.ACTION` (facet index 3). -/
def FacetType.ACTION : ℕ := 3

/-- `FacetType.ERROR` (facet index 11). -/
def FacetType.ERROR : ℕ := 11

/-! ## SIMDOpsService kernels -/

/-- The accumulator `na` (resp. `nb`) of `cosineSimilarity`, and the `sum`
of `normalize`: the sum of squares of the entries. -/
def sqSum (v : Vec) : ℝ := (v.map fun x => x * x).sum

/-- The accumulator `dot` of `cosineSimilarity`: the sum of pairwise
products. -/
def dotAcc (a b : Vec) : ℝ := (List.zipWith (· * ·) a b).sum

open Classical in
/-- `SIMDOpsService.cosineSimilarity`: throws when either operand is not
exactly `FACET_SIZE` entries, returns `0` when `sqrt(na*nb)` is zero, and
otherwise `dot / sqrt(na*nb)`. -/
noncomputable def cosineSimilarity (a b : Vec) : Except String ℝ :=
  if a.length ≠ FACET_SIZE ∨ b.length ≠ FACET_SIZE then
    .error "Vectors must be 512 floats"
  else
    let dot := dotAcc a b
    let na := sqSum a
    let nb := sqSum b
    let denom := Real.sqrt (na * nb)
    .ok (if denom = 0 then 0 else dot / denom)

open Classical in
/-- `SIMDOpsService.normalize`: divide every entry by the Euclidean norm
when that norm is positive, otherwise leave the vector unchanged.  (The
source loops over the first `FACET_SIZE` entries; all callers in the model
pass length-`FACET_SIZE` vectors, so the loop covers the whole vector.) -/
noncomputable def normalize (v : Vec) : Vec :=
  let norm := Real.sqrt (sqSum v)
  if norm > 0 then v.map fun x => x * (1 / norm) else v

/-! ## RingBufferService

The ring stores `RING_SLOTS` vector slots at disjoint offsets
(`idx*FACET_SIZE` floats each, tiling the buffer), so the slot area is
modelled as a function from slot index to vector.  The header words
`head`, `tail`, `gen` are the three `Uint32` counters. -/

/-- The shared state of `RingBufferService`: header counters plus the slot
area. -/
structure Ring where
  head : ℕ
  tail : ℕ
  gen : ℕ
  slots : ℕ → Vec

/-- A freshly constructed (or `reset`) ring: all counters zero, all slot
memory zero-filled. -/
def ring0 : Ring :=
  { head := 0, tail := 0, gen := 0, slots := fun _ => List.replicate FACET_SIZE 0 }

/-- `RingBufferService.push`: length-check the embedding, fail with
`Ring buffer full` when advancing `head` would collide with `tail`,
otherwise claim the slot at `head`, write the embedding there, bump the
generation counter when the new head wrapped to 0, and return the new
state.  (The returned JS slot index is not needed by any claim.) -/
def Ring.push (r : Ring) (embedding : Vec) : Except String Ring :=
  if embedding.length ≠ FACET_SIZE then .error "Embedding must be 512 floats"
  else
    let next := (r.head + 1) % RING_SLOTS
    if next = r.tail then .error "Ring buffer full"
    else .ok { head := next
               tail := r.tail
               gen := if next = 0 then r.gen + 1 else r.gen
               slots := Function.update r.slots r.head embedding }

/-- `RingBufferService.readNext`: return `none` (JS `null`) when
`head == tail` and the generation counter is zero; otherwise return the
slot at `tail` (the source returns a live view onto it) and advance
`tail` modulo `RING_SLOTS`. -/
def Ring.readNext (r : Ring) : Option Vec × Ring :=
  if r.head = r.tail ∧ r.gen = 0 then (none, r)
  else (some (r.slots r.tail), { r with tail := (r.tail + 1) % RING_SLOTS })

/-- `RingBufferService.isFull`: `next === tail && generation > 0`. -/
def Ring.isFull (r : Ring) : Bool :=
  ((r.head + 1) % RING_SLOTS == r.tail) && (0 < r.gen : Bool)

/-- `RingBufferService.available`: `h >= t ? h - t : RING_SLOTS - t + h`. -/
def Ring.available (r : Ring) : ℕ :=
  if r.tail ≤ r.head then r.head - r.tail else RING_SLOTS - r.tail + r.head

/-- Push a list of embeddings in order, stopping at the first failure. -/
def Ring.pushAll (r : Ring) : List Vec → Except String Ring
  | [] => .ok r
  | v :: vs => r.push v >>= fun r' => r'.pushAll vs

/-- Call `readNext` `n` times, collecting the returned values in order. -/
def Ring.readN (r : Ring) : ℕ → List (Option Vec) × Ring
  | 0 => ([], r)
  | n + 1 =>
    let (o, r') := r.readNext
    let (os, r'') := r'.readN n
    (o :: os, r'')

/-! ## NeuralMindService (the facet arena)

The 64 KB mind buffer is exactly `NUM_FACETS * FACET_SIZE` floats; the
facet views at offsets `i*FACET_SIZE*4` tile it with no overlap, so the
buffer is modelled as a function from facet index to vector, and likewise
the `lastSnapshot` shadow array. -/

/-- The state of `NeuralMindService`: the facet slots and the
`lastSnapshot` shadow vectors. -/
structure Arena where
  facets : ℕ → Vec
  shadows : ℕ → Vec

/-- A freshly constructed (or `reset`) arena: all facet and shadow memory
zero-filled. -/
def arena0 : Arena :=
  { facets := fun _ => List.replicate FACET_SIZE 0
    shadows := fun _ => List.replicate FACET_SIZE 0 }

/-- `NeuralMindService.writeFacet`: length-check the source, then
`getFacet` (which throws on an out-of-range index), then copy the source
into the slot.  The shadow vectors are untouched. -/
def Arena.writeFacet (a : Arena) (idx : ℕ) (src : Vec) : Except String Arena :=
  if src.length ≠ FACET_SIZE then .error "Source must be 512"
  else if idx < NUM_FACETS then
    .ok { a with facets := Function.update a.facets idx src }
  else .error s!"Invalid facet {idx}"

/-- `NeuralMindService.applyGradient`: length-check the delta, then for
every entry `i` set `target[i] += lr*delta[i] + mom*(target[i]-snap[i])`
and store the new `target[i]` into the shadow.  Note the shadow ends up
holding the updated slot *value* (the source assigns `snap[i] =
target[i]` after the update), not the applied delta. -/
def Arena.applyGradient (a : Arena) (facet : ℕ) (delta : Vec) (lr mom : ℝ) :
    Except String Arena :=
  if delta.length ≠ FACET_SIZE then .error "Delta must be 512"
  else if facet < NUM_FACETS then
    let target := a.facets facet
    let snap := a.shadows facet
    let newTarget :=
      List.zipWith (fun (p : ℝ × ℝ) d => p.1 + (lr * d + mom * (p.1 - p.2)))
        (target.zip snap) delta
    .ok { facets := Function.update a.facets facet newTarget
          shadows := Function.update a.shadows facet newTarget }
  else .error s!"Invalid facet {facet}"

/-- `NeuralMindService.resetFacet`: bounds-check, then zero the slot and
its shadow. -/
def Arena.resetFacet (a : Arena) (idx : ℕ) : Except String Arena :=
  if idx < NUM_FACETS then
    .ok { facets := Function.update a.facets idx (List.replicate FACET_SIZE 0)
          shadows := Function.update a.shadows idx (List.replicate FACET_SIZE 0) }
  else .error s!"Invalid facet {idx}"

/-! ## PrometheusService (threshold monitor) -/

/-- One entry of the `thresholds` map: `{ facet, threshold, learningRate,
momentum }`. -/
structure ThresholdCfg where
  facet : ℕ
  threshold : ℝ
  learningRate : ℝ
  momentum : ℝ

/-- The `thresholds` JS `Map`, as a partial function from facet id. -/
abbrev Thresholds := ℕ → Option ThresholdCfg

/-- The `thresholds` map right after the `PrometheusService` constructor:
the five monitored facets (INTENT, CONTEXT, EMOTION, ACTION, ERROR) each
carry the default config `{ threshold: 0.7, learningRate: 0.01,
momentum: 0.9 }`. -/
def prometheusInit : Thresholds := fun f =>
  if f = FacetType.INTENT ∨ f = FacetType.CONTEXT ∨ f = FacetType.EMOTION ∨
     f = FacetType.ACTION ∨ f = FacetType.ERROR
  then some ⟨f, 0.7, 0.01, 0.9⟩ else none

/-- `PrometheusService.adapt`: no-op when the facet has no config;
otherwise `threshold := clamp(threshold - learningRate * (threshold -
observed))` with the clamp `Math.max(0.5, Math.min(0.95, ·))`. -/
noncomputable def adapt (st : Thresholds) (facet : ℕ) (observed : ℝ) : Thresholds :=
  match st facet with
  | none => st
  | some cfg =>
    let newThr := max 0.5 (min 0.95 (cfg.threshold - cfg.learningRate * (cfg.threshold - observed)))
    Function.update st facet (some { cfg with threshold := newThr })

/-! ## NeuralRouterService -/

/-- One `toolMap` entry after `initializeToolMap`: centroid vector, hit
count and exponential-moving-average accuracy.  (The human-readable name
plays no role in any claim and is omitted.) -/
structure Tool where
  toolId : ℕ
  centroid : Vec
  hitCount : ℕ
  accuracy : ℝ

/-- The state of `NeuralRouterService`: its `toolMap`. -/
structure RouterState where
  toolMap : List Tool

/-- The record returned by `route` / `routeTopK`.  `route` additionally
reports a wall-clock latency, which is not modelled. -/
structure RouteResult where
  toolId : ℕ
  confidence : ℝ
  intentVector : Vec

open Classical in
/-- The `route` selection loop from its second iteration on: keep the
current best `(tool, sim)` pair, replacing it only on a strictly greater
similarity.  The source starts with `best = 0, bestSim = -Infinity`, so
the first iteration always installs tool 0; `routeLoop` is given that
first pair as its initial accumulator. -/
noncomputable def routeLoop : Tool × ℝ → List (Tool × ℝ) → Tool × ℝ
  | acc, [] => acc
  | acc, p :: ps => routeLoop (if p.2 > acc.2 then p else acc) ps

open Classical in
/-- `NeuralRouterService.route`: throw when the tool map is empty,
otherwise compute the cosine similarity of the INTENT facet against every
centroid (a thrown length error propagates, as in the source's loop) and
return the first tool realising the maximum, with that similarity as the
confidence and a defensive copy of the intent vector. -/
noncomputable def route (a : Arena) (st : RouterState) : Except String RouteResult :=
  match st.toolMap with
  | [] => .error "Tool map not initialized"
  | t :: ts => do
    let intent := a.facets FacetType.INTENT
    let s0 ← cosineSimilarity intent t.centroid
    let sims ← ts.mapM fun u => cosineSimilarity intent u.centroid
    let best := routeLoop (t, s0) (ts.zip sims)
    .ok { toolId := best.1.toolId, confidence := best.2, intentVector := intent }

/-- The ordering used to model `cand.sort((a,b) => b.sim - a.sim)` on the
candidates `{index, sim}` (here carrying the tool alongside its
registration index): ECMAScript `Array.prototype.sort` is stable, so its
result is the unique permutation sorted by the lexicographic key
"similarity descending, then registration index ascending"; `topKLe p q`
says `p` may precede `q` under that key. -/
def topKLe (p q : (ℕ × Tool) × ℝ) : Prop :=
  q.2 < p.2 ∨ (q.2 = p.2 ∧ p.1.1 ≤ q.1.1)

noncomputable instance : DecidableRel topKLe := fun _ _ => Classical.propDecidable _

instance : IsTotal ((ℕ × Tool) × ℝ) topKLe where
  total p q := by
    unfold topKLe
    rcases lt_trichotomy p.2 q.2 with h | h | h
    · exact Or.inr (Or.inl h)
    · rcases Nat.le_total p.1.1 q.1.1 with hle | hle
      · exact Or.inl (Or.inr ⟨h.symm, hle⟩)
      · exact Or.inr (Or.inr ⟨h, hle⟩)
    · exact Or.inl (Or.inl h)

instance : IsTrans ((ℕ × Tool) × ℝ) topKLe where
  trans p q r hpq hqr := by
    unfold topKLe at hpq hqr ⊢
    rcases hpq with h1 | ⟨h1, h1'⟩ <;> rcases hqr with h2 | ⟨h2, h2'⟩
    · exact Or.inl (lt_trans h2 h1)
    · exact Or.inl (by rw [h2]; exact h1)
    · exact Or.inl (by rw [← h1]; exact h2)
    · exact Or.inr ⟨by rw [h2, h1], le_trans h1' h2'⟩

/-- `NeuralRouterService.routeTopK`: throw when the tool map is empty,
otherwise build the candidate list `{index, sim}` in registration order,
stable-sort it by descending similarity, truncate to `k`, and project each
candidate `c` to `{ toolId: toolMap[c.index].toolId, confidence: c.sim,
intentVector }` (the pair here carries `toolMap[c.index]` itself). -/
noncomputable def routeTopK (a : Arena) (st : RouterState) (k : ℕ) :
    Except String (List RouteResult) :=
  match st.toolMap with
  | [] => .error "Tool map not initialized"
  | _ :: _ => do
    let intent := a.facets FacetType.INTENT
    let sims ← st.toolMap.mapM fun u => cosineSimilarity intent u.centroid
    let cand := st.toolMap.enum.zip sims
    let sorted := List.insertionSort topKLe cand
    .ok ((sorted.take k).map fun c =>
      { toolId := c.1.2.toolId, confidence := c.2, intentVector := intent })

/-- Replace the first element satisfying `p` (the one `Array.find` would
return, which `updateTool` then mutates in place). -/
def updateFirst (p : α → Bool) (f : α → α) : List α → List α
  | [] => []
  | x :: xs => if p x then f x :: xs else x :: updateFirst p f xs

/-- `NeuralRouterService.updateTool`: when no tool has the given id, log a
warning and return with no state change and no error; otherwise
length-check the feedback, then move the found tool's centroid by
`centroid[i] += lr*(feedback[i]-centroid[i])`, renormalize it with the
`normalize` kernel, and increment its hit count. -/
noncomputable def updateTool (st : RouterState) (tid : ℕ) (feedback : Vec) (lr : ℝ) :
    Except String RouterState :=
  match st.toolMap.find? (fun t => t.toolId == tid) with
  | none => .ok st
  | some _ =>
    if feedback.length ≠ FACET_SIZE then .error "Feedback must be 512 floats"
    else .ok { toolMap := updateFirst (fun t => t.toolId == tid) (fun t =>
      { t with
        centroid := normalize (List.zipWith (fun c fb => c + lr * (fb - c)) t.centroid feedback)
        hitCount := t.hitCount + 1 }) st.toolMap }


/-- A constant vector of the facet size; used to tag concrete ring slots. -/
def vecConst (x : ℝ) : Vec := List.replicate FACET_SIZE x

/-! ## Helper lemmas -/

theorem ok_bind {α β : Type} (a : α) (f : α → Except String β) :
    (Except.ok a >>= f : Except String β) = f a := rfl

/-- The ring state reached from a fresh ring after pushing the vectors of
`ws` (no wraparound: at most 31 pushes) and advancing `tail` to `t`. -/
def stateAfter (ws : List Vec) (t : ℕ) : Ring :=
  { head := ws.length, tail := t, gen := 0
    slots := fun j => if j < ws.length then ws.getD j [] else List.replicate FACET_SIZE 0 }

theorem ring0_eq_stateAfter : ring0 = stateAfter [] 0 := by
  unfold ring0 stateAfter
  simp

theorem pushAll_stateAfter (vs : List Vec) :
    ∀ ws : List Vec, ws.length + vs.length ≤ 31 → (∀ v ∈ vs, v.length = FACET_SIZE) →
      (stateAfter ws 0).pushAll vs = .ok (stateAfter (ws ++ vs) 0) := by
  induction vs with
  | nil => intro ws _ _; simp [Ring.pushAll]
  | cons v vs ih =>
    intro ws hlen hv
    have hvlen : v.length = FACET_SIZE := hv v (List.mem_cons_self v vs)
    have hwlen : ws.length ≤ 30 := by simp at hlen; omega
    have h32 : (ws.length + 1) % RING_SLOTS = ws.length + 1 :=
      Nat.mod_eq_of_lt (by unfold RING_SLOTS; omega)
    have hpush : (stateAfter ws 0).push v = .ok (stateAfter (ws ++ [v]) 0) := by
      simp only [Ring.push, stateAfter, hvlen, h32]
      rw [if_neg (by simp)]
      rw [if_neg (by omega)]
      rw [if_neg (by omega)]
      refine congrArg Except.ok ?_
      simp only [List.length_append, List.length_cons, List.length_nil, Nat.zero_add]
      refine congrArg (Ring.mk _ _ _) ?_
      funext j
      rcases lt_trichotomy j ws.length with hj | hj | hj
      · rw [Function.update_noteq (by omega)]
        rw [if_pos hj, if_pos (by omega)]
        rw [List.getD_eq_getElem?_getD, List.getD_eq_getElem?_getD,
          List.getElem?_append_left hj]
      · subst hj
        rw [Function.update_same, if_pos (by omega)]
        rw [List.getD_eq_getElem?_getD, List.getElem?_append_right le_rfl]
        simp
      · rw [Function.update_noteq (by omega), if_neg (by omega), if_neg (by omega)]
    show (stateAfter ws 0).push v >>= (fun r => r.pushAll vs) = _
    rw [hpush, ok_bind]
    rw [ih (ws ++ [v]) (by simp at hlen ⊢; omega) (fun u hu => hv u (List.mem_cons_of_mem _ hu))]
    simp

theorem readN_stateAfter (vs : List Vec) (hk : vs.length ≤ 31) :
    ∀ n t, t + n = vs.length →
      (stateAfter vs t).readN n = ((vs.drop t).map some, stateAfter vs vs.length) := by
  intro n
  induction n with
  | zero =>
    intro t ht
    simp only [Nat.add_zero] at ht
    subst ht
    simp [Ring.readN, List.drop_length]
  | succ n ih =>
    intro t ht
    have htlt : t < vs.length := by omega
    have h32 : (t + 1) % RING_SLOTS = t + 1 :=
      Nat.mod_eq_of_lt (by unfold RING_SLOTS; omega)
    have hread : (stateAfter vs t).readNext =
        (some (vs.getD t []), stateAfter vs (t + 1)) := by
      simp only [Ring.readNext, stateAfter, h32]
      rw [if_neg (by simp; omega)]
      rw [if_pos htlt]
    simp only [Ring.readN, hread]
    rw [ih (t + 1) (by omega)]
    rw [List.drop_eq_getElem_cons htlt]
    simp only [List.map_cons, List.getD_eq_getElem?_getD, List.getElem?_eq_getElem htlt,
      Option.getD_some]

/-! ## Claim theorems: ring buffer -/

set_option maxRecDepth 10000 in
/-- **C1, counterexample.**  The claim says that after exactly 31
successful pushes on a freshly reset ring `isFull()` returns true.  On the
code it returns false: no push has wrapped `head` past slot 0, so the
generation counter is still 0 and `isFull`'s `generation > 0` conjunct
fails.  Concretely: 31 pushes of the zero vector from `ring0` leave
`isFull` false. -/
theorem ring_isFull_claim_counterexample :
    (ring0.pushAll (List.replicate 31 (List.replicate FACET_SIZE (0:ℝ)))).map Ring.isFull
        = .ok false ∧
      (ring0.pushAll (List.replicate 31 (List.replicate FACET_SIZE (0:ℝ)))).map Ring.isFull
        ≠ .ok true := by
  refine ⟨by rfl, ?_⟩
  intro h
  rw [show (ring0.pushAll (List.replicate 31 (List.replicate FACET_SIZE (0:ℝ)))).map
      Ring.isFull = .ok false from rfl] at h
  simp at h

/-- **C1 (amended).**  For a freshly reset ring, after exactly 31
successful pushes with no intervening reads the next push fails with the
buffer-full error, but `isFull()` returns *false*: the generation counter
is still 0 because `head` never wrapped past slot 0, and `isFull` requires
`generation > 0` in addition to `next == tail`. -/
theorem ring_full_after_31_pushes (vs : List Vec) (w : Vec) (hlen : vs.length = 31)
    (hv : ∀ v ∈ vs, v.length = FACET_SIZE) (hw : w.length = FACET_SIZE) :
    ∃ r, ring0.pushAll vs = .ok r ∧ r.isFull = false ∧
      r.push w = .error "Ring buffer full" := by
  refine ⟨stateAfter vs 0, ?_, ?_, ?_⟩
  · rw [ring0_eq_stateAfter]
    have := pushAll_stateAfter vs [] (by simp [hlen]) hv
    simpa using this
  · simp [Ring.isFull, stateAfter, hlen, RING_SLOTS]
  · simp only [Ring.push, stateAfter, hlen, hw]
    rw [if_neg (by simp)]
    rw [if_pos (by norm_num [RING_SLOTS])]

/-- Witness for `ring_full_after_31_pushes` at 31 zero vectors. -/
theorem ring_full_after_31_pushes_witness :
    ∃ r, ring0.pushAll (List.replicate 31 (List.replicate FACET_SIZE (0:ℝ))) = .ok r ∧
      r.isFull = false ∧
      r.push (List.replicate FACET_SIZE (0:ℝ)) = .error "Ring buffer full" :=
  ring_full_after_31_pushes _ _ (by simp)
    (fun v hv => by rw [List.eq_of_mem_replicate hv]; simp) (by simp)

/-- **C3.**  FIFO round trip: pushing `k ≤ 31` length-512 vectors into a
fresh ring succeeds, and `k` subsequent `readNext` calls return exactly
those vectors in push order, leaving `available() == 0`.  (The `k = 1`
case is the push-one/read-one round trip.) -/
theorem ring_fifo_roundtrip (vs : List Vec) (hk : vs.length ≤ 31)
    (hv : ∀ v ∈ vs, v.length = FACET_SIZE) :
    ∃ r, ring0.pushAll vs = .ok r ∧
      (r.readN vs.length).1 = vs.map some ∧
      (r.readN vs.length).2.available = 0 := by
  refine ⟨stateAfter vs 0, ?_, ?_, ?_⟩
  · rw [ring0_eq_stateAfter]
    have := pushAll_stateAfter vs [] (by simpa using hk) hv
    simpa using this
  · rw [readN_stateAfter vs hk vs.length 0 (by omega)]
    simp
  · rw [readN_stateAfter vs hk vs.length 0 (by omega)]
    simp [Ring.available, stateAfter]

/-- Witness for `ring_fifo_roundtrip` at two tagged vectors. -/
theorem ring_fifo_roundtrip_witness :
    ∃ r, ring0.pushAll [vecConst 1, vecConst 2] = .ok r ∧
      (r.readN 2).1 = [some (vecConst 1), some (vecConst 2)] ∧
      (r.readN 2).2.available = 0 := by
  have h := ring_fifo_roundtrip [vecConst 1, vecConst 2] (by simp)
    (by intro v hv
        simp only [List.mem_cons, List.not_mem_nil, or_false] at hv
        rcases hv with h | h <;> (subst h; simp [vecConst]))
  simpa [vecConst] using h

set_option maxRecDepth 40000 in
/-- **C10.**  A reachable ring state with `head == tail` and
`generation > 0` in which `readNext` does *not* report empty: from a fresh
ring, push 31 tagged vectors, read one, push one more (this wraps `head`
to 0 and sets `generation = 1`), then read the remaining 31.  The state
now has `head = tail = 0` and `generation = 1`, and `readNext` returns the
contents of slot 0 — `vecConst 0`, the very vector the first read already
consumed — and advances `tail` to 1.  Moreover `readNext` reports empty
(`none`) exactly when `head == tail` and `generation == 0`. -/
theorem ring_readNext_stale_after_wrap :
    ((do
      let r1 ← ring0.pushAll ((List.range 31).map fun i => vecConst i)
      let r3 ← r1.readNext.2.push (vecConst 31)
      let r4 := (r3.readN 31).2
      pure (r1.readNext.1, r4.head, r4.tail, r4.gen, r4.readNext.1, r4.readNext.2.tail))
      = Except.ok (some (vecConst ((0:ℕ):ℝ)), 0, 0, 1, some (vecConst ((0:ℕ):ℝ)), 1))
    ∧ ∀ r : Ring, r.readNext.1 = none ↔ (r.head = r.tail ∧ r.gen = 0) := by
  constructor
  · rfl
  · intro r
    by_cases h : r.head = r.tail ∧ r.gen = 0
    · simp [Ring.readNext, h]
    · simp [Ring.readNext, h]

/-! ## Claim theorems: facet arena -/

/-- **C2, counterexample.**  The claim predicts
`slot[i] += lr*delta[i] + mom*(previous applied delta)[i]` where the
previous applied delta is the total delta applied by the preceding
`applyGradient` call.  Apply `applyGradient(0, ones, lr=1, mom=1)` twice
to a fresh arena: the first call applies a total delta of `1` per entry
(slot goes `0 → 1`), so the claim predicts entry 0 of the slot after the
second call to be `1 + 1*1 + 1*1 = 3` (second component below).  The code
yields `2`: its momentum term is `target[i] - snap[i]`, and the shadow
`snap` was set to the slot *value* at the end of the first call, making
the momentum term `0` when nothing wrote the slot in between. -/
theorem applyGradient_momentum_counterexample :
    (do
      let a1 ← arena0.applyGradient 0 (List.replicate FACET_SIZE (1:ℝ)) 1 1
      let a2 ← a1.applyGradient 0 (List.replicate FACET_SIZE (1:ℝ)) 1 1
      pure ((a2.facets 0).getD 0 0,
        (a1.facets 0).getD 0 0 + (1 * (List.replicate FACET_SIZE (1:ℝ)).getD 0 0
          + 1 * ((a1.facets 0).getD 0 0 - (arena0.facets 0).getD 0 0))))
      = Except.ok ((2:ℝ), 3) ∧ (2:ℝ) ≠ 3 := by
  have e1 : arena0.applyGradient 0 (List.replicate FACET_SIZE (1:ℝ)) 1 1 = .ok
      { facets := Function.update arena0.facets 0 (List.replicate FACET_SIZE 1)
        shadows := Function.update arena0.shadows 0 (List.replicate FACET_SIZE 1) } := by
    simp only [Arena.applyGradient, arena0]
    rw [if_neg (by simp), if_pos (by norm_num [NUM_FACETS])]
    norm_num [List.zip_replicate', List.zipWith_replicate']
  have e2 : (Arena.mk (Function.update arena0.facets 0 (List.replicate FACET_SIZE 1))
      (Function.update arena0.shadows 0 (List.replicate FACET_SIZE 1))).applyGradient
        0 (List.replicate FACET_SIZE (1:ℝ)) 1 1 = .ok
      { facets := Function.update arena0.facets 0 (List.replicate FACET_SIZE 2)
        shadows := Function.update arena0.shadows 0 (List.replicate FACET_SIZE 2) } := by
    simp only [Arena.applyGradient]
    rw [if_neg (by simp), if_pos (by norm_num [NUM_FACETS])]
    simp only [Function.update_same, List.zip_replicate', List.zipWith_replicate']
    norm_num
  constructor
  · show (arena0.applyGradient 0 (List.replicate FACET_SIZE (1:ℝ)) 1 1 >>= _) = _
    rw [e1, ok_bind]
    show ((Arena.mk _ _).applyGradient 0 (List.replicate FACET_SIZE (1:ℝ)) 1 1 >>= _) = _
    rw [e2, ok_bind]
    have hrep : ∀ c : ℝ, (List.replicate FACET_SIZE c).getD 0 0 = c := by
      intro c
      rw [List.getD_eq_getElem?_getD,
        List.getElem?_replicate_of_lt (by norm_num [FACET_SIZE])]
      rfl
    show Except.ok _ = _
    rw [Except.ok.injEq, Prod.mk.injEq]
    dsimp only
    simp only [Function.update_same]
    rw [show arena0.facets 0 = List.replicate FACET_SIZE (0:ℝ) from rfl]
    simp only [hrep]
    norm_num
  · norm_num

/-- **C2 (amended).**  For a valid facet `f` and a length-`D` delta,
`applyGradient(f, delta, lr, mom)` sets, for every `i`,
`slot[i] += lr*delta[i] + mom*(slot[i] - shadow[i])`, where `shadow` is
the slot value recorded at the end of the previous `applyGradient` on `f`
(all zeros after construction or reset) — i.e. the momentum term is the
change made to the slot *by other writers* since the last gradient call,
not the previously applied delta — and afterwards the stored shadow equals
the new slot value (not the applied total delta). -/
theorem applyGradient_spec (a : Arena) (f : ℕ) (delta : Vec) (lr mom : ℝ)
    (hf : f < NUM_FACETS) (hd : delta.length = FACET_SIZE)
    (hfl : (a.facets f).length = FACET_SIZE) (hsl : (a.shadows f).length = FACET_SIZE) :
    ∃ a', a.applyGradient f delta lr mom = .ok a' ∧
      (a'.facets f).length = FACET_SIZE ∧
      (∀ i, i < FACET_SIZE →
        (a'.facets f).getD i 0 =
          (a.facets f).getD i 0 +
            (lr * delta.getD i 0 + mom * ((a.facets f).getD i 0 - (a.shadows f).getD i 0))) ∧
      a'.shadows f = a'.facets f := by
  set nt : Vec :=
    List.zipWith (fun (p : ℝ × ℝ) d => p.1 + (lr * d + mom * (p.1 - p.2)))
      ((a.facets f).zip (a.shadows f)) delta with hnt
  refine ⟨⟨Function.update a.facets f nt, Function.update a.shadows f nt⟩, ?_, ?_, ?_, ?_⟩
  · simp only [Arena.applyGradient, hd]
    rw [if_neg (by simp), if_pos hf]
  · dsimp only
    rw [Function.update_same, hnt]
    simp [hd, hfl, hsl]
  · intro i hi
    have h1 : (a.facets f)[i]? = some ((a.facets f).getD i 0) := by
      rw [List.getElem?_eq_getElem (by omega), List.getD_eq_getElem?_getD,
        List.getElem?_eq_getElem (by omega)]
      rfl
    have h2 : (a.shadows f)[i]? = some ((a.shadows f).getD i 0) := by
      rw [List.getElem?_eq_getElem (by omega), List.getD_eq_getElem?_getD,
        List.getElem?_eq_getElem (by omega)]
      rfl
    have h3 : delta[i]? = some (delta.getD i 0) := by
      rw [List.getElem?_eq_getElem (by omega), List.getD_eq_getElem?_getD,
        List.getElem?_eq_getElem (by omega)]
      rfl
    have hzip : ((a.facets f).zip (a.shadows f))[i]? =
        some ((a.facets f).getD i 0, (a.shadows f).getD i 0) := by
      rw [List.getElem?_zip_eq_some]
      exact ⟨h1, h2⟩
    dsimp only
    rw [Function.update_same]
    rw [List.getD_eq_getElem?_getD, hnt, List.getElem?_zipWith, hzip, h3]
    rfl
  · dsimp only
    rw [Function.update_same, Function.update_same]

/-- Witness for `applyGradient_spec`: facet 0 of a fresh arena with a
constant delta. -/
theorem applyGradient_spec_witness :
    ∃ a', arena0.applyGradient 0 (vecConst 1) 2 3 = .ok a' ∧
      (a'.facets 0).length = FACET_SIZE ∧
      (∀ i, i < FACET_SIZE →
        (a'.facets 0).getD i 0 =
          (arena0.facets 0).getD i 0 +
            (2 * (vecConst 1).getD i 0 +
              3 * ((arena0.facets 0).getD i 0 - (arena0.shadows 0).getD i 0))) ∧
      a'.shadows 0 = a'.facets 0 :=
  applyGradient_spec arena0 0 (vecConst 1) 2 3 (by norm_num [NUM_FACETS])
    (by simp [vecConst]) (by simp [arena0]) (by simp [arena0])

/-- **C9.**  Frame property of the arena operations: a successful
`writeFacet`, `applyGradient` or `resetFacet` on facet `f` leaves every
other facet slot `g ≠ f` and its shadow unchanged, and `writeFacet`
leaves *every* shadow (including facet `f`'s) unchanged. -/
theorem arena_frame (a : Arena) (f g : ℕ) (v delta : Vec) (lr mom : ℝ) (hg : g ≠ f) :
    (∀ a', a.writeFacet f v = .ok a' →
        a'.facets g = a.facets g ∧ ∀ g', a'.shadows g' = a.shadows g') ∧
    (∀ a', a.applyGradient f delta lr mom = .ok a' →
        a'.facets g = a.facets g ∧ a'.shadows g = a.shadows g) ∧
    (∀ a', a.resetFacet f = .ok a' →
        a'.facets g = a.facets g ∧ a'.shadows g = a.shadows g) := by
  refine ⟨?_, ?_, ?_⟩
  · intro a' h
    simp only [Arena.writeFacet] at h
    split at h
    · cases h
    · split at h
      · injection h with h
        subst h
        exact ⟨Function.update_noteq hg _ _, fun _ => rfl⟩
      · cases h
  · intro a' h
    simp only [Arena.applyGradient] at h
    split at h
    · cases h
    · split at h
      · injection h with h
        subst h
        exact ⟨Function.update_noteq hg _ _, Function.update_noteq hg _ _⟩
      · cases h
  · intro a' h
    simp only [Arena.resetFacet] at h
    split at h
    · injection h with h
      subst h
      exact ⟨Function.update_noteq hg _ _, Function.update_noteq hg _ _⟩
    · cases h

/-- Witness for `arena_frame`: operations on facet 0 of a fresh arena do
not touch facet 1. -/
theorem arena_frame_witness :
    (∀ a', arena0.writeFacet 0 (vecConst 1) = .ok a' →
        a'.facets 1 = arena0.facets 1 ∧ ∀ g', a'.shadows g' = arena0.shadows g') ∧
    (∀ a', arena0.applyGradient 0 (vecConst 1) 2 3 = .ok a' →
        a'.facets 1 = arena0.facets 1 ∧ a'.shadows 1 = arena0.shadows 1) ∧
    (∀ a', arena0.resetFacet 0 = .ok a' →
        a'.facets 1 = arena0.facets 1 ∧ a'.shadows 1 = arena0.shadows 1) :=
  arena_frame arena0 0 1 (vecConst 1) (vecConst 1) 2 3 (by decide)

/-! ## Claim theorems: threshold monitor -/

/-- **C5.**  For every monitored facet (one with a config in the
`thresholds` map) with threshold `t`, learning rate `lr` and any observed
similarity `s`, `adapt` stores `t - lr*(t - s)` clamped into
`[0.5, 0.95]`; consequently the stored threshold always lies in
`[0.5, 0.95]`, and when `s < t` it strictly decreases provided the clamp
leaves room (`0.5 < t`) and the configured learning rate is positive (the
default config has `lr = 0.01`). -/
theorem adapt_spec (st : Thresholds) (f : ℕ) (cfg : ThresholdCfg) (s : ℝ)
    (h : st f = some cfg) :
    ∃ cfg', adapt st f s f = some cfg' ∧
      cfg'.threshold =
        max 0.5 (min 0.95 (cfg.threshold - cfg.learningRate * (cfg.threshold - s))) ∧
      0.5 ≤ cfg'.threshold ∧ cfg'.threshold ≤ 0.95 ∧
      cfg'.learningRate = cfg.learningRate ∧ cfg'.momentum = cfg.momentum ∧
      (s < cfg.threshold → 0 < cfg.learningRate → 0.5 < cfg.threshold →
        cfg'.threshold < cfg.threshold) := by
  refine ⟨{ cfg with
              threshold := max 0.5
                (min 0.95 (cfg.threshold - cfg.learningRate * (cfg.threshold - s))) },
    ?_, rfl, ?_, ?_, rfl, rfl, ?_⟩
  · simp only [adapt, h, Function.update_same]
  · exact le_max_left _ _
  · exact max_le (by norm_num) (min_le_left _ _)
  · intro hs hlr ht
    have hlt : cfg.threshold - cfg.learningRate * (cfg.threshold - s) < cfg.threshold := by
      nlinarith
    exact max_lt ht (lt_of_le_of_lt (min_le_right _ _) hlt)

/-- Witness for `adapt_spec`: the default INTENT config observing a
similarity of 0.6. -/
theorem adapt_spec_witness :
    prometheusInit FacetType.INTENT = some ⟨FacetType.INTENT, 0.7, 0.01, 0.9⟩ ∧
    ∃ cfg', adapt prometheusInit FacetType.INTENT 0.6 FacetType.INTENT = some cfg' ∧
      cfg'.threshold = max 0.5 (min 0.95 ((0.7:ℝ) - 0.01 * (0.7 - 0.6))) ∧
      0.5 ≤ cfg'.threshold ∧ cfg'.threshold ≤ 0.95 ∧
      cfg'.learningRate = 0.01 ∧ cfg'.momentum = 0.9 ∧
      ((0.6:ℝ) < 0.7 → (0:ℝ) < 0.01 → (0.5:ℝ) < 0.7 → cfg'.threshold < 0.7) := by
  have h : prometheusInit FacetType.INTENT = some ⟨FacetType.INTENT, 0.7, 0.01, 0.9⟩ := by
    simp [prometheusInit]
  exact ⟨h, adapt_spec prometheusInit FacetType.INTENT ⟨FacetType.INTENT, 0.7, 0.01, 0.9⟩ 0.6 h⟩

/-! ## Claim theorems: similarity kernel -/

theorem sqSum_nonneg (v : Vec) : 0 ≤ sqSum v := by
  unfold sqSum
  refine List.sum_nonneg ?_
  intro x hx
  obtain ⟨y, _, rfl⟩ := List.mem_map.mp hx
  exact mul_self_nonneg y

/-- Cauchy–Schwarz for the list-based accumulators: the square of the dot
product is bounded by the product of the squared norms (for lists of any
lengths; `zipWith` truncates to the shorter one). -/
theorem dotAcc_sq_le (a : Vec) : ∀ b : Vec, (dotAcc a b) ^ 2 ≤ sqSum a * sqSum b := by
  induction a with
  | nil =>
    intro b
    simp [dotAcc, sqSum]
  | cons x xs ih =>
    intro b
    cases b with
    | nil => simp [dotAcc, sqSum]
    | cons y ys =>
      have hA : 0 ≤ sqSum xs := sqSum_nonneg xs
      have hB : 0 ≤ sqSum ys := sqSum_nonneg ys
      have hS : (dotAcc xs ys) ^ 2 ≤ sqSum xs * sqSum ys := ih ys
      have hxs : dotAcc (x :: xs) (y :: ys) = x * y + dotAcc xs ys := by
        simp [dotAcc]
      have hA' : sqSum (x :: xs) = x * x + sqSum xs := by simp [sqSum]
      have hB' : sqSum (y :: ys) = y * y + sqSum ys := by simp [sqSum]
      rw [hxs, hA', hB']
      rcases le_or_lt (2 * x * y * dotAcc xs ys) 0 with hq | hq
      · nlinarith [mul_nonneg (mul_self_nonneg x) hB, mul_nonneg (mul_self_nonneg y) hA]
      · have hP : 0 ≤ x ^ 2 * sqSum ys + y ^ 2 * sqSum xs :=
          add_nonneg (mul_nonneg (sq_nonneg x) hB) (mul_nonneg (sq_nonneg y) hA)
        have key : (2 * x * y * dotAcc xs ys) ^ 2 ≤
            (x ^ 2 * sqSum ys + y ^ 2 * sqSum xs) ^ 2 := by
          nlinarith [sq_nonneg (x ^ 2 * sqSum ys - y ^ 2 * sqSum xs),
            mul_nonneg (mul_nonneg (sq_nonneg x) (sq_nonneg y)) (sub_nonneg.mpr hS)]
        have h2 : 2 * x * y * dotAcc xs ys ≤ x ^ 2 * sqSum ys + y ^ 2 * sqSum xs :=
          le_of_pow_le_pow_left₀ two_ne_zero hP key
        nlinarith [hS, h2]

open Classical in
/-- The value computed by a successful `cosineSimilarity` call:
`0` when `sqrt(na*nb)` is zero, else `dot / sqrt(na*nb)`. -/
noncomputable def cosValue (a b : Vec) : ℝ :=
  if Real.sqrt (sqSum a * sqSum b) = 0 then 0
  else dotAcc a b / Real.sqrt (sqSum a * sqSum b)

theorem cosineSimilarity_ok (a b : Vec) (ha : a.length = FACET_SIZE)
    (hb : b.length = FACET_SIZE) : cosineSimilarity a b = .ok (cosValue a b) := by
  unfold cosineSimilarity cosValue
  rw [if_neg (by simp [ha, hb])]

/-- `cosValue` always lies in `[-1, 1]`. -/
theorem cosValue_bounds (a b : Vec) : -1 ≤ cosValue a b ∧ cosValue a b ≤ 1 := by
  unfold cosValue
  split
  · norm_num
  · rename_i hden
    have hprod : 0 ≤ sqSum a * sqSum b := mul_nonneg (sqSum_nonneg a) (sqSum_nonneg b)
    have hpos : 0 < Real.sqrt (sqSum a * sqSum b) :=
      lt_of_le_of_ne (Real.sqrt_nonneg _) (Ne.symm hden)
    have habs : |dotAcc a b| ≤ Real.sqrt (sqSum a * sqSum b) := by
      have h1 : Real.sqrt ((dotAcc a b) ^ 2) ≤ Real.sqrt (sqSum a * sqSum b) :=
        Real.sqrt_le_sqrt (dotAcc_sq_le a b)
      rwa [Real.sqrt_sq_eq_abs] at h1
    have : |dotAcc a b / Real.sqrt (sqSum a * sqSum b)| ≤ 1 := by
      rw [abs_div, abs_of_pos hpos]
      exact (div_le_one hpos).mpr habs
    exact abs_le.mp this

/-- **C6.**  `cosineSimilarity(a, b)` fails with the length-mismatch error
when either operand's length differs from `D = 512`; otherwise it returns
exactly `0` when either operand's Euclidean norm is `0` (equivalently,
its sum of squares is `0`), and in all other cases it returns
`dot(a,b) / (‖a‖·‖b‖)`, a value in `[-1, 1]` (the returned value lies in
`[-1, 1]` in every successful case). -/
theorem cosineSimilarity_spec (a b : Vec) :
    (a.length ≠ FACET_SIZE ∨ b.length ≠ FACET_SIZE →
      cosineSimilarity a b = .error "Vectors must be 512 floats") ∧
    (a.length = FACET_SIZE → b.length = FACET_SIZE →
      cosineSimilarity a b = .ok (cosValue a b) ∧
      -1 ≤ cosValue a b ∧ cosValue a b ≤ 1 ∧
      (sqSum a = 0 ∨ sqSum b = 0 → cosValue a b = 0) ∧
      (sqSum a ≠ 0 → sqSum b ≠ 0 →
        cosValue a b = dotAcc a b / (Real.sqrt (sqSum a) * Real.sqrt (sqSum b)))) := by
  constructor
  · intro h
    unfold cosineSimilarity
    rw [if_pos h]
  · intro ha hb
    refine ⟨cosineSimilarity_ok a b ha hb, (cosValue_bounds a b).1,
      (cosValue_bounds a b).2, ?_, ?_⟩
    · intro h
      unfold cosValue
      rw [if_pos]
      rcases h with h | h <;> simp [h]
    · intro ha0 hb0
      have hapos : 0 < sqSum a := lt_of_le_of_ne (sqSum_nonneg a) (Ne.symm ha0)
      have hbpos : 0 < sqSum b := lt_of_le_of_ne (sqSum_nonneg b) (Ne.symm hb0)
      unfold cosValue
      rw [if_neg (by positivity), Real.sqrt_mul (sqSum_nonneg a)]

/-- Witness for `cosineSimilarity_spec`: a length-100 vector is rejected,
and the all-ones vector compared with itself yields similarity 1. -/
theorem cosineSimilarity_spec_witness :
    cosineSimilarity (List.replicate 100 (1:ℝ)) (vecConst 1)
        = .error "Vectors must be 512 floats" ∧
      cosineSimilarity (vecConst 1) (vecConst 1) = .ok (cosValue (vecConst 1) (vecConst 1)) ∧
      -1 ≤ cosValue (vecConst 1) (vecConst 1) ∧ cosValue (vecConst 1) (vecConst 1) ≤ 1 :=
  ⟨(cosineSimilarity_spec (List.replicate 100 1) (vecConst 1)).1
      (Or.inl (by simp [FACET_SIZE])),
    ((cosineSimilarity_spec (vecConst 1) (vecConst 1)).2 (by simp [vecConst])
      (by simp [vecConst])).1,
    ((cosineSimilarity_spec (vecConst 1) (vecConst 1)).2 (by simp [vecConst])
      (by simp [vecConst])).2.1,
    ((cosineSimilarity_spec (vecConst 1) (vecConst 1)).2 (by simp [vecConst])
      (by simp [vecConst])).2.2.1⟩

/-! ## Claim theorems: router update -/

theorem sqSum_map_mul (v : Vec) (c : ℝ) :
    sqSum (v.map fun x => x * c) = c ^ 2 * sqSum v := by
  unfold sqSum
  rw [List.map_map]
  rw [show ((fun x => x * x) ∘ fun x => x * c) = fun x => c ^ 2 * (x * x) from
    funext fun x => by simp only [Function.comp_apply]; ring]
  exact List.sum_map_mul_left v _ _

/-- `normalize` really produces a unit vector whenever the input has
nonzero norm. -/
theorem normalize_unit (v : Vec) (h : sqSum v ≠ 0) :
    Real.sqrt (sqSum (normalize v)) = 1 := by
  have hpos : 0 < sqSum v := lt_of_le_of_ne (sqSum_nonneg v) (Ne.symm h)
  have hnorm : 0 < Real.sqrt (sqSum v) := Real.sqrt_pos.mpr hpos
  unfold normalize
  rw [if_pos hnorm, sqSum_map_mul]
  rw [show (1 / Real.sqrt (sqSum v)) ^ 2 = 1 / sqSum v by
    rw [div_pow, one_pow, Real.sq_sqrt hpos.le]]
  rw [one_div, inv_mul_cancel₀ h, Real.sqrt_one]

/-- `normalize` leaves a zero-norm vector unchanged. -/
theorem normalize_of_sqSum_zero (v : Vec) (h : sqSum v = 0) : normalize v = v := by
  unfold normalize
  rw [h, Real.sqrt_zero, if_neg (lt_irrefl 0)]

theorem updateFirst_of_find? (p : α → Bool) (f : α → α) :
    ∀ (l : List α) (t₀ : α), l.find? p = some t₀ →
      ∃ pre post, l = pre ++ t₀ :: post ∧ (∀ x ∈ pre, p x = false) ∧
        updateFirst p f l = pre ++ f t₀ :: post := by
  intro l
  induction l with
  | nil => intro t₀ h; cases h
  | cons x xs ih =>
    intro t₀ h
    by_cases hp : p x
    · rw [List.find?_cons_of_pos _ hp] at h
      injection h with h
      subst h
      exact ⟨[], xs, rfl, by simp, by simp [updateFirst, hp]⟩
    · rw [List.find?_cons_of_neg _ hp] at h
      obtain ⟨pre, post, hl, hpre, hupd⟩ := ih t₀ h
      refine ⟨x :: pre, post, by simp [hl], ?_, ?_⟩
      · intro z hz
        rcases List.mem_cons.mp hz with rfl | hz
        · simpa using hp
        · exact hpre z hz
      · simp [updateFirst, hp, hupd]

/-- **C8 (amended).**  `update(id, feedback, lr)` with a registered id and
length-`D` feedback replaces the (first) matching centroid by
`normalize(centroid + lr*(feedback - centroid))` — of unit Euclidean
length whenever the moved centroid is nonzero, but left as-is (the
`normalize` kernel's zero-norm no-op) when the moved centroid is the zero
vector — then increments exactly that centroid's hit count by 1, leaving
its accuracy and every other tool untouched; with an unregistered id it
returns with no state change and no error. -/
theorem updateTool_spec (st : RouterState) (tid : ℕ) (feedback : Vec) (lr : ℝ)
    (hfb : feedback.length = FACET_SIZE) :
    (st.toolMap.find? (fun t => t.toolId == tid) = none →
      updateTool st tid feedback lr = .ok st) ∧
    (∀ t₀, st.toolMap.find? (fun t => t.toolId == tid) = some t₀ →
      ∃ pre post, st.toolMap = pre ++ t₀ :: post ∧
        updateTool st tid feedback lr = .ok ⟨pre ++
          { t₀ with
            centroid :=
              normalize (List.zipWith (fun c fb => c + lr * (fb - c)) t₀.centroid feedback)
            hitCount := t₀.hitCount + 1 } :: post⟩ ∧
        (sqSum (List.zipWith (fun c fb => c + lr * (fb - c)) t₀.centroid feedback) ≠ 0 →
          Real.sqrt (sqSum
            (normalize (List.zipWith (fun c fb => c + lr * (fb - c)) t₀.centroid feedback)))
            = 1)) := by
  constructor
  · intro h
    unfold updateTool
    rw [h]
  · intro t₀ h
    obtain ⟨pre, post, hl, hpre, hupd⟩ :=
      updateFirst_of_find? (fun t => t.toolId == tid)
        (fun t => { t with
          centroid :=
            normalize (List.zipWith (fun c fb => c + lr * (fb - c)) t.centroid feedback)
          hitCount := t.hitCount + 1 }) st.toolMap t₀ h
    refine ⟨pre, post, hl, ?_, fun hnz => normalize_unit _ hnz⟩
    unfold updateTool
    rw [h, if_neg (by simp [hfb]), hupd]

/-- Witness for `updateTool_spec`: a two-tool map where tool 7 is hit. -/
theorem updateTool_spec_witness :
    (RouterState.mk [⟨3, vecConst 1, 0, 0⟩, ⟨7, vecConst 1, 5, 0⟩]).toolMap.find?
        (fun t => t.toolId == 7) = some ⟨7, vecConst 1, 5, 0⟩ ∧
    ∃ pre post,
      (RouterState.mk [⟨3, vecConst 1, 0, 0⟩, ⟨7, vecConst 1, 5, 0⟩]).toolMap =
        pre ++ (⟨7, vecConst 1, 5, 0⟩ : Tool) :: post ∧
      updateTool (RouterState.mk [⟨3, vecConst 1, 0, 0⟩, ⟨7, vecConst 1, 5, 0⟩])
          7 (vecConst 0) 1 = .ok ⟨pre ++
        ({ (⟨7, vecConst 1, 5, 0⟩ : Tool) with
          centroid := normalize
            (List.zipWith (fun c fb => c + 1 * (fb - c)) (vecConst 1) (vecConst 0))
          hitCount := 5 + 1 }) :: post⟩ ∧
      (sqSum (List.zipWith (fun c fb => c + 1 * (fb - c)) (vecConst 1) (vecConst 0)) ≠ 0 →
        Real.sqrt (sqSum (normalize
          (List.zipWith (fun c fb => c + 1 * (fb - c)) (vecConst 1) (vecConst 0)))) = 1) := by
  have h : (RouterState.mk [⟨3, vecConst 1, 0, 0⟩, ⟨7, vecConst 1, 5, 0⟩]).toolMap.find?
      (fun t => t.toolId == 7) = some ⟨7, vecConst 1, 5, 0⟩ := by
    rw [show (RouterState.mk [⟨3, vecConst 1, 0, 0⟩, ⟨7, vecConst 1, 5, 0⟩]).toolMap =
      [⟨3, vecConst 1, 0, 0⟩, ⟨7, vecConst 1, 5, 0⟩] from rfl]
    rw [List.find?_cons_of_neg _ (by decide), List.find?_cons_of_pos _ (by decide)]
  exact ⟨h, (updateTool_spec (RouterState.mk [⟨3, vecConst 1, 0, 0⟩, ⟨7, vecConst 1, 5, 0⟩])
    7 (vecConst 0) 1 (by simp [vecConst])).2 ⟨7, vecConst 1, 5, 0⟩ h⟩

/-- **C8, counterexample.**  The claim says the updated centroid is
renormalized *to unit Euclidean length*.  With the registered tool 1
holding the zero centroid and zero feedback (lr = 1), the moved centroid
is the zero vector; `normalize` is a no-op on it (zero norm), so the
stored centroid stays zero with norm `0 ≠ 1`, while the hit count is still
incremented. -/
theorem updateTool_unit_norm_counterexample :
    updateTool (RouterState.mk [⟨1, vecConst 0, 0, 0⟩]) 1 (vecConst 0) 1
        = .ok (RouterState.mk [⟨1, vecConst 0, 1, 0⟩]) ∧
      Real.sqrt (sqSum (vecConst 0)) = 0 ∧ (0:ℝ) ≠ 1 := by
  have hz : sqSum (vecConst 0) = 0 := by
    simp [sqSum, vecConst]
  have hmv : List.zipWith (fun c fb => c + 1 * (fb - c)) (vecConst 0) (vecConst 0)
      = vecConst 0 := by
    unfold vecConst
    rw [List.zipWith_replicate']
    norm_num
  refine ⟨?_, by rw [hz, Real.sqrt_zero], by norm_num⟩
  unfold updateTool
  rw [show (RouterState.mk [⟨1, vecConst 0, 0, 0⟩]).toolMap
    = [⟨1, vecConst 0, 0, 0⟩] from rfl]
  rw [List.find?_cons_of_pos _ (by decide)]
  rw [if_neg (by simp [vecConst])]
  simp only [updateFirst]
  rw [if_pos (show ((⟨1, vecConst 0, 0, 0⟩ : Tool).toolId == 1) = true from by decide)]
  rw [hmv, normalize_of_sqSum_zero _ hz]

/-! ## Claim theorems: routing -/

theorem mapM_ok {α β : Type} (g : α → β) {f : α → Except String β} :
    ∀ l : List α, (∀ x ∈ l, f x = .ok (g x)) → l.mapM f = .ok (l.map g) := by
  intro l
  induction l with
  | nil => intro _; rfl
  | cons x xs ih =>
    intro h
    rw [List.mapM_cons, h x (List.mem_cons_self x xs), ok_bind,
      ih (fun z hz => h z (List.mem_cons_of_mem _ hz)), ok_bind]
    rfl

theorem routeLoop_spec (l : List (Tool × ℝ)) :
    ∀ acc : Tool × ℝ, (routeLoop acc l = acc ∨ routeLoop acc l ∈ l) ∧
      acc.2 ≤ (routeLoop acc l).2 ∧ ∀ p ∈ l, p.2 ≤ (routeLoop acc l).2 := by
  induction l with
  | nil => intro acc; exact ⟨Or.inl rfl, le_refl _, by simp⟩
  | cons p ps ih =>
    intro acc
    have hstep : ∀ q : Tool × ℝ, routeLoop acc (p :: ps) =
        routeLoop (if p.2 > acc.2 then p else acc) ps := fun _ => rfl
    by_cases hcmp : p.2 > acc.2
    · obtain ⟨hmem, hacc, hall⟩ := ih p
      have hred : routeLoop acc (p :: ps) = routeLoop p ps := by
        rw [hstep p, if_pos hcmp]
      refine ⟨?_, ?_, ?_⟩
      · rw [hred]
        rcases hmem with h | h
        · rw [h]
          exact Or.inr (List.mem_cons_self _ _)
        · exact Or.inr (List.mem_cons_of_mem _ h)
      · rw [hred]
        exact le_trans (le_of_lt hcmp) hacc
      · intro q hq
        rw [hred]
        rcases List.mem_cons.mp hq with rfl | hq
        · exact hacc
        · exact hall q hq
    · obtain ⟨hmem, hacc, hall⟩ := ih acc
      have hred : routeLoop acc (p :: ps) = routeLoop acc ps := by
        rw [hstep p, if_neg hcmp]
      refine ⟨?_, ?_, ?_⟩
      · rw [hred]
        rcases hmem with h | h
        · exact Or.inl h
        · exact Or.inr (List.mem_cons_of_mem _ h)
      · rw [hred]
        exact hacc
      · intro q hq
        rw [hred]
        rcases List.mem_cons.mp hq with rfl | hq
        · exact le_trans (not_lt.mp hcmp) hacc
        · exact hall q hq

/-- **C4.**  `route()`: with at least one registered centroid it returns
the toolId of a centroid whose similarity (the `cosineSimilarity` kernel:
cosine similarity, with 0 for a zero-norm operand) to the INTENT facet is
maximal over all registered centroids, with confidence equal to that
maximal similarity and a copy of the query vector; with no centroids it
fails with the not-initialized error. -/
theorem route_spec (a : Arena) (st : RouterState)
    (hI : (a.facets FacetType.INTENT).length = FACET_SIZE)
    (hc : ∀ t ∈ st.toolMap, t.centroid.length = FACET_SIZE) :
    (st.toolMap = [] → route a st = .error "Tool map not initialized") ∧
    (st.toolMap ≠ [] → ∃ res, route a st = .ok res ∧
      (∃ t ∈ st.toolMap, res.toolId = t.toolId ∧
        res.confidence = cosValue (a.facets FacetType.INTENT) t.centroid) ∧
      (∀ u ∈ st.toolMap, cosValue (a.facets FacetType.INTENT) u.centroid ≤ res.confidence) ∧
      res.intentVector = a.facets FacetType.INTENT) := by
  constructor
  · intro hm
    simp only [route, hm]
  · intro hne
    obtain ⟨t, ts, hm⟩ := List.exists_cons_of_ne_nil hne
    have hs0 : cosineSimilarity (a.facets FacetType.INTENT) t.centroid =
        .ok (cosValue (a.facets FacetType.INTENT) t.centroid) :=
      cosineSimilarity_ok _ _ hI (hc t (hm ▸ List.mem_cons_self t ts))
    have hsims : ts.mapM (fun u => cosineSimilarity (a.facets FacetType.INTENT) u.centroid) =
        .ok (ts.map fun u => cosValue (a.facets FacetType.INTENT) u.centroid) :=
      mapM_ok _ ts (fun u hu =>
        cosineSimilarity_ok _ _ hI (hc u (hm ▸ List.mem_cons_of_mem _ hu)))
    have hpairs : ts.zip (ts.map fun u => cosValue (a.facets FacetType.INTENT) u.centroid) =
        ts.map fun u => (u, cosValue (a.facets FacetType.INTENT) u.centroid) := by
      have h := List.zip_map' id
        (fun u => cosValue (a.facets FacetType.INTENT) u.centroid) ts
      simpa using h
    have hroute : route a st = .ok
        { toolId := (routeLoop (t, cosValue (a.facets FacetType.INTENT) t.centroid)
            (ts.map fun u => (u, cosValue (a.facets FacetType.INTENT) u.centroid))).1.toolId
          confidence := (routeLoop (t, cosValue (a.facets FacetType.INTENT) t.centroid)
            (ts.map fun u => (u, cosValue (a.facets FacetType.INTENT) u.centroid))).2
          intentVector := a.facets FacetType.INTENT } := by
      simp only [route, hm]
      rw [hs0, ok_bind, hsims, ok_bind, hpairs]
    obtain ⟨hmem, hacc, hall⟩ :=
      routeLoop_spec (ts.map fun u => (u, cosValue (a.facets FacetType.INTENT) u.centroid))
        (t, cosValue (a.facets FacetType.INTENT) t.centroid)
    set best := routeLoop (t, cosValue (a.facets FacetType.INTENT) t.centroid)
      (ts.map fun u => (u, cosValue (a.facets FacetType.INTENT) u.centroid)) with hbest
    have hbestform : ∃ u ∈ t :: ts, best = (u, cosValue (a.facets FacetType.INTENT) u.centroid) := by
      rcases hmem with h | h
      · exact ⟨t, List.mem_cons_self t ts, h⟩
      · obtain ⟨u, hu, hq⟩ := List.mem_map.mp h
        exact ⟨u, List.mem_cons_of_mem _ hu, hq.symm⟩
    obtain ⟨u, hu, huq⟩ := hbestform
    refine ⟨_, hroute, ⟨u, hm ▸ hu, ?_, ?_⟩, ?_, rfl⟩
    · rw [huq]
    · rw [huq]
    · intro w hw
      rcases List.mem_cons.mp (hm ▸ hw) with rfl | hw'
      · exact hacc
      · exact hall _ (List.mem_map.mpr ⟨w, hw', rfl⟩)

/-- Witness for `route_spec`: a fresh arena (zero query) and one
registered tool. -/
theorem route_spec_witness :
    ∃ res, route arena0 (RouterState.mk [⟨1, vecConst 1, 0, 0⟩]) = .ok res ∧
      (∃ t ∈ (RouterState.mk [⟨1, vecConst 1, 0, 0⟩]).toolMap, res.toolId = t.toolId ∧
        res.confidence = cosValue (arena0.facets FacetType.INTENT) t.centroid) ∧
      (∀ u ∈ (RouterState.mk [⟨1, vecConst 1, 0, 0⟩]).toolMap,
        cosValue (arena0.facets FacetType.INTENT) u.centroid ≤ res.confidence) ∧
      res.intentVector = arena0.facets FacetType.INTENT :=
  (route_spec arena0 (RouterState.mk [⟨1, vecConst 1, 0, 0⟩]) (by simp [arena0])
    (by intro t ht
        rw [show (RouterState.mk [⟨1, vecConst 1, 0, 0⟩]).toolMap
          = [⟨1, vecConst 1, 0, 0⟩] from rfl] at ht
        rcases List.mem_cons.mp ht with rfl | ht
        · simp [vecConst]
        · cases ht)).2 (by simp)

/-- **C7.**  `routeTopK(k)` with `m ≥ 1` registered centroids returns
exactly `min(k, m)` results, ordered by non-increasing similarity to the
query facet, and results of equal similarity appear in registration order
(the stable tie-break): the emitted list is the `k`-prefix of a
permutation of the brute-force candidate list that is strictly sorted by
the key (similarity descending, registration index ascending). -/
theorem routeTopK_spec (a : Arena) (st : RouterState)
    (hI : (a.facets FacetType.INTENT).length = FACET_SIZE)
    (hc : ∀ t ∈ st.toolMap, t.centroid.length = FACET_SIZE)
    (hne : st.toolMap ≠ []) (k : ℕ) :
    ∃ res, routeTopK a st k = .ok res ∧
      res.length = min k st.toolMap.length ∧
      res.Pairwise (fun x y => y.confidence ≤ x.confidence) ∧
      ∃ cand' : List ((ℕ × Tool) × ℝ), cand'.Perm (st.toolMap.enum.map fun p =>
          (p, cosValue (a.facets FacetType.INTENT) p.2.centroid)) ∧
        cand'.Pairwise (fun p q => q.2 < p.2 ∨ (p.2 = q.2 ∧ p.1.1 < q.1.1)) ∧
        res = (cand'.take k).map fun c =>
          { toolId := c.1.2.toolId, confidence := c.2
            intentVector := a.facets FacetType.INTENT } := by
  obtain ⟨tm⟩ := st
  simp only at hc hne ⊢
  obtain ⟨t, ts, rfl⟩ := List.exists_cons_of_ne_nil hne
  have hsims : (t :: ts).mapM
      (fun u => cosineSimilarity (a.facets FacetType.INTENT) u.centroid) =
      .ok ((t :: ts).map fun u => cosValue (a.facets FacetType.INTENT) u.centroid) :=
    mapM_ok _ (t :: ts) (fun u hu => cosineSimilarity_ok _ _ hI (hc u hu))
  have hcand : (t :: ts).enum.zip
        ((t :: ts).map fun u => cosValue (a.facets FacetType.INTENT) u.centroid) =
      (t :: ts).enum.map fun p =>
        (p, cosValue (a.facets FacetType.INTENT) p.2.centroid) := by
    have hmap : ((t :: ts).map fun u => cosValue (a.facets FacetType.INTENT) u.centroid) =
        (t :: ts).enum.map fun p => cosValue (a.facets FacetType.INTENT) p.2.centroid := by
      conv_lhs => rw [← List.enum_map_snd (t :: ts)]
      rw [List.map_map]
      rfl
    rw [hmap]
    have h := List.zip_map' id
      (fun p => cosValue (a.facets FacetType.INTENT) p.2.centroid) (t :: ts).enum
    simpa using h
  set cand : List ((ℕ × Tool) × ℝ) := (t :: ts).enum.map fun p =>
    (p, cosValue (a.facets FacetType.INTENT) p.2.centroid) with hcanddef
  set cand' := List.insertionSort topKLe cand with hcand'
  have hroute : routeTopK a ⟨t :: ts⟩ k = .ok ((cand'.take k).map fun c =>
      { toolId := c.1.2.toolId, confidence := c.2
        intentVector := a.facets FacetType.INTENT }) := by
    simp only [routeTopK]
    rw [hsims, ok_bind, hcand]
  have hperm : cand'.Perm cand := List.perm_insertionSort topKLe cand
  have hsorted : cand'.Pairwise topKLe := List.sorted_insertionSort topKLe cand
  have hfst : (cand.map fun c => c.1.1) = List.range (t :: ts).length := by
    rw [hcanddef, List.map_map]
    rw [show ((fun (c : (ℕ × Tool) × ℝ) => c.1.1) ∘ fun p =>
      (p, cosValue (a.facets FacetType.INTENT) p.2.centroid)) = Prod.fst from rfl]
    exact List.enum_map_fst _
  have hnodup : (cand'.map fun c => c.1.1).Nodup := by
    refine ((hperm.map fun c => c.1.1).nodup_iff).mpr ?_
    rw [hfst]
    exact List.nodup_range _
  have hneq : cand'.Pairwise fun p q => p.1.1 ≠ q.1.1 := List.pairwise_map.mp hnodup
  have hstrict : cand'.Pairwise fun p q => q.2 < p.2 ∨ (p.2 = q.2 ∧ p.1.1 < q.1.1) := by
    refine (hsorted.and hneq).imp ?_
    rintro p q ⟨hle, hne'⟩
    rcases hle with hlt | ⟨heq, hidx⟩
    · exact Or.inl hlt
    · exact Or.inr ⟨heq.symm, lt_of_le_of_ne hidx hne'⟩
  refine ⟨_, hroute, ?_, ?_, cand', hperm, hstrict, rfl⟩
  · rw [List.length_map, List.length_take, hperm.length_eq, hcanddef,
      List.length_map, List.enum_length]
  · refine List.pairwise_map.mpr ?_
    refine (hstrict.sublist (List.take_sublist k cand')).imp ?_
    rintro p q (hlt | ⟨heq, _⟩)
    · exact le_of_lt hlt
    · exact le_of_eq heq.symm

/-- Witness for `routeTopK_spec`: a fresh arena, two registered tools,
`k = 2`. -/
theorem routeTopK_spec_witness :
    ∃ res, routeTopK arena0 (RouterState.mk [⟨1, vecConst 1, 0, 0⟩, ⟨2, vecConst 1, 0, 0⟩]) 2
        = .ok res ∧
      res.length = min 2 (RouterState.mk [⟨1, vecConst 1, 0, 0⟩, ⟨2, vecConst 1, 0, 0⟩]).toolMap.length ∧
      res.Pairwise (fun x y => y.confidence ≤ x.confidence) ∧
      ∃ cand' : List ((ℕ × Tool) × ℝ), cand'.Perm
          ((RouterState.mk [⟨1, vecConst 1, 0, 0⟩, ⟨2, vecConst 1, 0, 0⟩]).toolMap.enum.map
          fun p => (p, cosValue (arena0.facets FacetType.INTENT) p.2.centroid)) ∧
        cand'.Pairwise (fun p q => q.2 < p.2 ∨ (p.2 = q.2 ∧ p.1.1 < q.1.1)) ∧
        res = (cand'.take 2).map fun c =>
          { toolId := c.1.2.toolId, confidence := c.2
            intentVector := arena0.facets FacetType.INTENT } :=
  routeTopK_spec arena0 (RouterState.mk [⟨1, vecConst 1, 0, 0⟩, ⟨2, vecConst 1, 0, 0⟩])
    (by simp [arena0])
    (by intro t ht
        rw [show (RouterState.mk [⟨1, vecConst 1, 0, 0⟩, ⟨2, vecConst 1, 0, 0⟩]).toolMap
          = [⟨1, vecConst 1, 0, 0⟩, ⟨2, vecConst 1, 0, 0⟩] from rfl] at ht
        rcases List.mem_cons.mp ht with rfl | ht
        · simp [vecConst]
        · rcases List.mem_cons.mp ht with rfl | ht
          · simp [vecConst]
          · cases ht)
    (by simp) 2

end NeuralEngine
